import Mathlib

/-!
Verification of the poll-until-valid engine of this repository.

The engine lives in `src/hooks/useThunkPoll.js`: a reducer-style state
transition function (`pollingReducer`) together with an event-loop driver
(`performPoll` / `handleNextPoll` / `startPolling` / `stopPolling`,
scheduled via `setTimeout` and a React effect keyed on
`isPollingJobActive`).  Two domain adapters supply validators:
`usePostThunkPoll.js` (collection-size) and `usePostDetailsThunkPoll`
(field-completeness, from `useThunkPoll.md`).

The embedding below models JavaScript values with a small inductive type,
translates the reducer and the validators directly from the source, and
gives a small-step operational semantics for the hook's event loop:
a configuration carries the committed React state, whether a `setTimeout`
callback is pending, and how many dispatched thunks are still awaiting
resolution.  Each step function mirrors one observable event
(`startPolling`, `stopPolling`, a timer firing, a promise settling),
including these source-level details:

* `performPoll` guards on `stateRef.current.isPollingJobActive` before
  dispatching (useThunkPoll.js line 83);
* the `.then` / `.catch` continuations have NO such guard: they dispatch
  `POLL_RESULT` unconditionally (lines 98-110);
* `handleNextPoll` reads `stateRef.current.attemptCount + 1` — the ref is
  still the state from before the `POLL_RESULT` dispatch of the same
  synchronous continuation, because the ref is refreshed only by an
  effect after the next render (lines 70-72, 85-94);
* the effect keyed on `state.isPollingJobActive` (lines 113-122) runs
  `performPoll` when the flag turns true and clears any pending timeout
  in its cleanup whenever the flag changes.
-/

/-- A JavaScript value, as far as the validators inspect one:
null, undefined, booleans, integers, strings, arrays and plain objects. -/
inductive JSValue where
  | null : JSValue
  | undefined : JSValue
  | bool : Bool → JSValue
  | num : Int → JSValue
  | str : String → JSValue
  | arr : List JSValue → JSValue
  | obj : List (String × JSValue) → JSValue

/-- JavaScript falsiness: null, undefined, false, 0 and the empty string
are falsy; every array and object is truthy. -/
def isFalsy : JSValue → Bool
  | .null => true
  | .undefined => true
  | .bool b => !b
  | .num n => n == 0
  | .str s => s == ""
  | .arr _ => false
  | .obj _ => false

/-- Property lookup on a plain object: the value stored under the key,
or undefined when the key is absent. -/
def getProp (fields : List (String × JSValue)) (key : String) : JSValue :=
  match fields with
  | [] => .undefined
  | (k, v) :: rest => if k = key then v else getProp rest key

/-- Reading `x.body` on an arbitrary value: field access on an object,
undefined on anything else (including null/undefined under `?.`). -/
def bodyProp : JSValue → JSValue
  | .obj fields => getProp fields "body"
  | _ => .undefined

/-- Characters stripped by JavaScript's `String.prototype.trim` that can
occur in this repository's data: space, tab, newline, carriage return. -/
def isJsWhitespace (c : Char) : Bool :=
  c == ' ' || c == '\t' || c == '\n' || c == '\r'

/-- JavaScript `String.prototype.trim`: strip leading and trailing
whitespace. -/
def jsTrim (s : String) : String :=
  .mk (((s.data.dropWhile isJsWhitespace).reverse.dropWhile
      isJsWhitespace).reverse)

/-- Collection-size validator of `usePostThunkPoll.js` (lines 16-18):
`(posts) => Array.isArray(posts) && posts.length > 101`. -/
def postsValidator : JSValue → Bool
  | .arr xs => xs.length > 101
  | _ => false

/-- JavaScript `Array.prototype.every` applied to a callback that may
throw: short-circuits on the first element whose check is false, and
propagates the first exception reached. -/
def jsEvery (f : JSValue → Except String Bool) : List JSValue → Except String Bool
  | [] => .ok true
  | x :: xs => do
    let b ← f x
    if b then jsEvery f xs else .ok false

/-- Element check of the field-completeness validator
(`usePostDetailsThunkPoll`, useThunkPoll.md lines 116-119):
`(post) => post?.body && post.body.trim() !== ""`.
When `post?.body` is falsy the conjunction is that falsy value; otherwise
`.trim()` is called, which throws a TypeError unless the body is a
string. -/
def postBodyCheck (post : JSValue) : Except String Bool :=
  let body := bodyProp post
  if isFalsy body then .ok false
  else
    match body with
    | .str s => .ok (decide (jsTrim s ≠ ""))
    | _ => .error "TypeError: post.body.trim is not a function"

/-- Field-completeness validator of `usePostDetailsThunkPoll`
(useThunkPoll.md lines 116-119):
`(data) => { if (!data) return false;
             return data.every((post) => post?.body && post.body.trim() !== ""); }`.
A falsy payload returns false; an array runs `every`; any other truthy
value has no `every` method, so the call throws a TypeError. -/
def postDetailsValidator (data : JSValue) : Except String Bool :=
  if isFalsy data then .ok false
  else
    match data with
    | .arr xs => jsEvery postBodyCheck xs
    | _ => .error "TypeError: data.every is not a function"

/-- A settled thunk dispatch: `.then` receives a result whose `payload`
the validator inspects, `.catch` receives an error that is wrapped as
`lastResult = ` the error object (useThunkPoll.js lines 98-110). -/
inductive ResultV where
  | res : JSValue → ResultV
  | err : JSValue → ResultV

/-- The `PollSession` state owned by the hook's reducer
(useThunkPoll.js lines 12-18). -/
structure PollSession where
  isPollingJobActive : Bool
  isPolling : Bool
  attemptCount : Nat
  lastResult : Option ResultV
  validationStatus : Option String

/-- `initialState` of useThunkPoll.js lines 12-18. -/
def initialState : PollSession :=
  { isPollingJobActive := false
    isPolling := false
    attemptCount := 0
    lastResult := none
    validationStatus := none }

/-- An action dispatched to the reducer: a string `type` plus an optional
`payload` (only `POLL_RESULT` carries one). -/
structure PollAction where
  type : String
  payload : Option ResultV := none

/-- `pollingReducer` of useThunkPoll.js lines 20-57, with the default
branch's `throw new Error(...)` embedded as `Except.error`. -/
def pollingReducer (state : PollSession) (action : PollAction) :
    Except String PollSession :=
  if action.type = "START_POLLING" then
    .ok { initialState with isPollingJobActive := true }
  else if action.type = "STOP_POLLING" then
    .ok { state with isPollingJobActive := false, isPolling := false }
  else if action.type = "POLL_INIT" then
    .ok { state with isPolling := true }
  else if action.type = "POLL_RESULT" then
    .ok { state with
          isPolling := false
          lastResult := action.payload
          attemptCount := state.attemptCount + 1 }
  else if action.type = "VALIDATION_SUCCESS" then
    .ok { state with
          isPollingJobActive := false
          validationStatus := some "success" }
  else if action.type = "MAX_ATTEMPTS_REACHED" then
    .ok { state with
          isPollingJobActive := false
          validationStatus := some "max_attempts_reached" }
  else
    .error ("Unhandled action type: " ++ action.type)

/-- Whether an `Except` computation returned normally. -/
def exceptIsOk {ε α : Type} : Except ε α → Bool
  | .ok _ => true
  | .error _ => false

/-- The six action types the reducer recognizes (useThunkPoll.js
lines 4-11). -/
def recognizedActionTypes : List String :=
  ["START_POLLING", "STOP_POLLING", "POLL_INIT", "POLL_RESULT",
   "VALIDATION_SUCCESS", "MAX_ATTEMPTS_REACHED"]

/-- `dispatchAction` as the engine uses it: every action the engine
itself dispatches is recognized, so the error branch of the reducer is
unreachable there; it is kept as the identity to make the function
total. -/
def dispatchA (s : PollSession) (a : PollAction) : PollSession :=
  match pollingReducer s a with
  | .ok s' => s'
  | .error _ => s

/-- Engine parameters read through refs at each step
(useThunkPoll.js lines 63-66): the attempt budget
(`maxAttemptsRef`, `null` allowed per the `!= null` check on line 87)
and the validator.  The interval length does not affect which events are
possible, only when, so it is not carried. -/
structure PollEnv where
  maxAttempts : Option Nat
  validator : JSValue → Bool

/-- A configuration of the hook's event loop: the committed reducer
state (equal to `stateRef.current` at every continuation entry), whether
a `setTimeout(performPoll, interval)` is pending and uncancelled, and
how many dispatched thunk promises are still unsettled. -/
structure PollConfig where
  state : PollSession
  timer : Bool
  inFlight : Nat

/-- The configuration before any event: initial state, no timer, no
dispatch outstanding. -/
def initConfig : PollConfig :=
  { state := initialState, timer := false, inFlight := 0 }

/-- `startPolling` (useThunkPoll.js lines 124-126) followed by the
render it triggers.  The reducer resets the state and sets the active
flag.  If the session was previously inactive the flag changed, so the
effect on lines 113-122 re-runs: its cleanup clears any pending timeout
and its body calls `performPoll`, whose guard passes, dispatching
`POLL_INIT` and the thunk.  If the session was already active the flag
did not change and the effect does not re-run.  The boolean reports
whether the async action was dispatched by this event. -/
def stepStart (c : PollConfig) : PollConfig × Bool :=
  let s' := dispatchA c.state { type := "START_POLLING" }
  if c.state.isPollingJobActive then
    ({ c with state := s' }, false)
  else
    ({ state := dispatchA s' { type := "POLL_INIT" }
       timer := false
       inFlight := c.inFlight + 1 }, true)

/-- `stopPolling` (useThunkPoll.js lines 128-133): clear any pending
timeout, then dispatch `STOP_POLLING`.  In-flight promises are not
aborted. -/
def stepStop (c : PollConfig) : PollConfig :=
  { state := dispatchA c.state { type := "STOP_POLLING" }
    timer := false
    inFlight := c.inFlight }

/-- A pending `setTimeout(performPoll, interval)` fires
(useThunkPoll.js line 92 into lines 81-96): `performPoll` first reads
`stateRef.current` and returns immediately when the session is inactive
(line 83); otherwise it dispatches `POLL_INIT` and the thunk.  The
boolean reports whether the async action was dispatched.  When no timer
is pending the configuration is unchanged. -/
def stepTimer (c : PollConfig) : PollConfig × Bool :=
  if c.timer then
    if c.state.isPollingJobActive then
      ({ state := dispatchA c.state { type := "POLL_INIT" }
         timer := false
         inFlight := c.inFlight + 1 }, true)
    else
      ({ c with timer := false }, false)
  else
    (c, false)

/-- `handleNextPoll` (useThunkPoll.js lines 85-94), run inside a
`.then` / `.catch` continuation: it reads
`stateRef.current.attemptCount + 1`, where the ref still holds the state
from before this continuation's `POLL_RESULT` dispatch (`c.state`), and
either dispatches `MAX_ATTEMPTS_REACHED` or schedules the next
`performPoll`.  When the dispatch flips `isPollingJobActive` from true
to false, the effect cleanup on lines 117-121 clears the timeout ref. -/
def handleNextPoll (env : PollEnv) (c : PollConfig) (s1 : PollSession) :
    PollConfig :=
  match env.maxAttempts with
  | some m =>
    if c.state.attemptCount + 1 ≥ m then
      { state := dispatchA s1 { type := "MAX_ATTEMPTS_REACHED" }
        timer := if c.state.isPollingJobActive then false else c.timer
        inFlight := c.inFlight - 1 }
    else
      { state := s1, timer := true, inFlight := c.inFlight - 1 }
  | none =>
    { state := s1, timer := true, inFlight := c.inFlight - 1 }

/-- An in-flight thunk promise settles (useThunkPoll.js lines 98-110).
The continuation runs with no active-session guard: it dispatches
`POLL_RESULT` unconditionally, then on a resolution runs the validator
on `result.payload` and dispatches `VALIDATION_SUCCESS` or falls through
to `handleNextPoll`; on a rejection it wraps the error and falls through
to `handleNextPoll`.  As in `handleNextPoll`, a dispatch that flips the
active flag to false triggers the effect cleanup, clearing the timeout
ref. -/
def stepResolve (env : PollEnv) (c : PollConfig) (r : ResultV) : PollConfig :=
  let s1 := dispatchA c.state { type := "POLL_RESULT", payload := some r }
  match r with
  | .res p =>
    if env.validator p then
      { state := dispatchA s1 { type := "VALIDATION_SUCCESS" }
        timer := if c.state.isPollingJobActive then false else c.timer
        inFlight := c.inFlight - 1 }
    else
      handleNextPoll env c s1
  | .err _ =>
    handleNextPoll env c s1

/-- Drive one session to quiescence or until the scripted outcomes run
out: settle the in-flight attempt with the next outcome, and when that
schedules a retry, fire the timer.  Returns the final configuration and
the number of times the timer-fired `performPoll` dispatched the async
action. -/
def runResolves (env : PollEnv) (c : PollConfig) :
    List ResultV → PollConfig × Nat
  | [] => (c, 0)
  | r :: rs =>
    if c.inFlight = 0 then (c, 0)
    else
      let c1 := stepResolve env c r
      if c1.timer then
        let fired := stepTimer c1
        let rest := runResolves env fired.1 rs
        (rest.1, (if fired.2 then 1 else 0) + rest.2)
      else
        (c1, 0)

/-- A whole session: `startPolling` from the idle hook, then settle
attempts with the scripted outcomes.  Returns the final configuration
and the total number of dispatches of the async action. -/
def runSession (env : PollEnv) (outcomes : List ResultV) :
    PollConfig × Nat :=
  let st := stepStart initConfig
  let rest := runResolves env st.1 outcomes
  (rest.1, (if st.2 then 1 else 0) + rest.2)

/-! ### Reducer dispatch lemmas -/

/-- Dispatching `START_POLLING` resets every field and activates the
session. -/
@[simp] lemma dispatchA_start_polling (s : PollSession) :
    dispatchA s { type := "START_POLLING" } =
      { isPollingJobActive := true, isPolling := false, attemptCount := 0,
        lastResult := none, validationStatus := none } := rfl

/-- Dispatching `STOP_POLLING` clears the active and in-flight flags. -/
@[simp] lemma dispatchA_stop_polling (s : PollSession) :
    dispatchA s { type := "STOP_POLLING" } =
      { s with isPollingJobActive := false, isPolling := false } := rfl

/-- Dispatching `POLL_INIT` marks an attempt in flight. -/
@[simp] lemma dispatchA_poll_init (s : PollSession) :
    dispatchA s { type := "POLL_INIT" } = { s with isPolling := true } := rfl

/-- Dispatching `POLL_RESULT` records the result and counts the
attempt. -/
@[simp] lemma dispatchA_poll_result (s : PollSession) (r : ResultV) :
    dispatchA s { type := "POLL_RESULT", payload := some r } =
      { s with isPolling := false, lastResult := some r,
               attemptCount := s.attemptCount + 1 } := rfl

/-- Dispatching `VALIDATION_SUCCESS` ends the session successfully. -/
@[simp] lemma dispatchA_validation_success (s : PollSession) :
    dispatchA s { type := "VALIDATION_SUCCESS" } =
      { s with isPollingJobActive := false,
               validationStatus := some "success" } := rfl

/-- Dispatching `MAX_ATTEMPTS_REACHED` ends the session exhausted. -/
@[simp] lemma dispatchA_max_attempts (s : PollSession) :
    dispatchA s { type := "MAX_ATTEMPTS_REACHED" } =
      { s with isPollingJobActive := false,
               validationStatus := some "max_attempts_reached" } := rfl

/-! ### C8: the reducer is a closed transition function -/

/-- C8.  The engine's state-transition function returns a new state
without raising exactly for the six recognized action types, regardless
of the current state, and raises for every other action type. -/
theorem C8_reducer_closed_transition (s : PollSession) (a : PollAction) :
    exceptIsOk (pollingReducer s a) = true ↔
      a.type ∈ recognizedActionTypes := by
  unfold pollingReducer recognizedActionTypes
  split_ifs with h1 h2 h3 h4 h5 h6 <;> simp_all [exceptIsOk]

/-! ### C6: collection-size validator -/

/-- C6.  The posts adapter's validator accepts exactly the arrays of
length strictly greater than 101: it maps every array to the comparison
of its length against 101, maps null, undefined and every non-array
value to false (returning, never raising, since it is a total boolean
function), and on the reference inputs: length 101 and the empty array
give false, length 102 gives true. -/
theorem C6_collection_size_validator :
    (∀ xs : List JSValue, postsValidator (.arr xs) = decide (xs.length > 101))
    ∧ postsValidator .null = false
    ∧ postsValidator .undefined = false
    ∧ (∀ v : JSValue, (∀ xs : List JSValue, v ≠ .arr xs) →
        postsValidator v = false)
    ∧ postsValidator (.arr []) = false
    ∧ postsValidator (.arr (List.replicate 101 .null)) = false
    ∧ postsValidator (.arr (List.replicate 102 .null)) = true := by
  refine ⟨fun xs => rfl, rfl, rfl, ?_, rfl, by decide, by decide⟩
  intro v h
  cases v with
  | arr xs => exact absurd rfl (h xs)
  | _ => rfl

/-- Witness for C6: the non-array clause applied to a concrete string
payload. -/
theorem C6_collection_size_validator_witness :
    postsValidator (.str "x") = false :=
  C6_collection_size_validator.2.2.2.1 (.str "x") (fun xs h => by cases h)

/-! ### C7 / C10: field-completeness validator -/

/-- The claim's acceptance condition for one element, written from the
spec's words: the element is non-null/non-undefined and its `body` field
is a text value that is non-empty after trimming whitespace. -/
def specBodyNonBlank (post : JSValue) : Bool :=
  match post with
  | .null => false
  | .undefined => false
  | p =>
    match bodyProp p with
    | .str s => decide (jsTrim s ≠ "")
    | _ => false

/-- Guard under which the element check cannot throw: the `body` the
code reaches is either falsy or a string (the spec leaves other body
types as undefined behavior of the adapter). -/
def bodyTrimSafe (post : JSValue) : Bool :=
  isFalsy (bodyProp post) ||
    (match bodyProp post with
     | .str _ => true
     | _ => false)

/-- Binding a normal `Except` result runs the continuation. -/
@[simp] lemma exceptOkThen {α β : Type} (a : α) (f : α → Except String β) :
    (Except.ok a >>= f) = f a := rfl

/-- Binding a raised `Except` propagates the exception. -/
@[simp] lemma exceptErrorThen {α β : Type} (msg : String)
    (f : α → Except String β) :
    ((Except.error msg : Except String α) >>= f) = .error msg := rfl

/-- Trimming the empty string gives the empty string. -/
@[simp] lemma jsTrim_empty : jsTrim "" = "" := rfl

/-- On a trim-safe element the code's check returns normally and agrees
with the spec's acceptance condition. -/
lemma postBodyCheck_safe (e : JSValue) (h : bodyTrimSafe e = true) :
    postBodyCheck e = .ok (specBodyNonBlank e) := by
  cases e with
  | null => rfl
  | undefined => rfl
  | bool b => rfl
  | num n => rfl
  | str s => rfl
  | arr xs => rfl
  | obj fields =>
    unfold bodyTrimSafe at h
    cases hb : bodyProp (.obj fields) with
    | str s =>
      by_cases hs : s = ""
      · simp [postBodyCheck, specBodyNonBlank, hb, hs, isFalsy]
      · simp [postBodyCheck, specBodyNonBlank, hb, hs, isFalsy]
    | null => simp [postBodyCheck, specBodyNonBlank, hb, isFalsy]
    | undefined => simp [postBodyCheck, specBodyNonBlank, hb, isFalsy]
    | bool b =>
      cases b
      · simp [postBodyCheck, specBodyNonBlank, hb, isFalsy]
      · rw [hb] at h
        simp [isFalsy] at h
    | num n =>
      by_cases hn : n = 0
      · simp [postBodyCheck, specBodyNonBlank, hb, isFalsy, hn]
      · rw [hb] at h
        simp [isFalsy, hn] at h
    | arr xs =>
      rw [hb] at h
      simp [isFalsy] at h
    | obj fs =>
      rw [hb] at h
      simp [isFalsy] at h

/-- The code's element check returns true exactly when the spec's
acceptance condition holds, with no safety guard needed. -/
lemma postBodyCheck_ok_true (e : JSValue) :
    postBodyCheck e = .ok true ↔ specBodyNonBlank e = true := by
  cases e with
  | obj fields =>
    cases hb : bodyProp (.obj fields) with
    | str s =>
      by_cases hs : s = "" <;>
        simp [postBodyCheck, specBodyNonBlank, hb, hs, isFalsy]
    | bool b =>
      cases b <;> simp [postBodyCheck, specBodyNonBlank, hb, isFalsy]
    | num n =>
      by_cases hn : n = 0 <;>
        simp [postBodyCheck, specBodyNonBlank, hb, isFalsy, hn]
    | null => simp [postBodyCheck, specBodyNonBlank, hb, isFalsy]
    | undefined => simp [postBodyCheck, specBodyNonBlank, hb, isFalsy]
    | arr xs => simp [postBodyCheck, specBodyNonBlank, hb, isFalsy]
    | obj fs => simp [postBodyCheck, specBodyNonBlank, hb, isFalsy]
  | null => simp [postBodyCheck, specBodyNonBlank, bodyProp, isFalsy]
  | undefined => simp [postBodyCheck, specBodyNonBlank, bodyProp, isFalsy]
  | bool b => simp [postBodyCheck, specBodyNonBlank, bodyProp, isFalsy]
  | num n => simp [postBodyCheck, specBodyNonBlank, bodyProp, isFalsy]
  | str s => simp [postBodyCheck, specBodyNonBlank, bodyProp, isFalsy]
  | arr xs => simp [postBodyCheck, specBodyNonBlank, bodyProp, isFalsy]

/-- On a list of trim-safe elements, `every` returns normally with the
pointwise conjunction of the spec's acceptance condition. -/
lemma jsEvery_safe (xs : List JSValue)
    (h : ∀ e ∈ xs, bodyTrimSafe e = true) :
    jsEvery postBodyCheck xs = .ok (xs.all specBodyNonBlank) := by
  induction xs with
  | nil => rfl
  | cons x rest ih =>
    have hx := postBodyCheck_safe x (h x (by simp))
    have hr := ih (fun e he => h e (by simp [he]))
    cases hb : specBodyNonBlank x with
    | true => simp [jsEvery, hx, hb, hr]
    | false => simp [jsEvery, hx, hb]

/-- `every` returns true exactly when every element satisfies the spec's
acceptance condition, guard or no guard. -/
lemma jsEvery_ok_true (xs : List JSValue) :
    jsEvery postBodyCheck xs = .ok true ↔
      xs.all specBodyNonBlank = true := by
  induction xs with
  | nil => simp [jsEvery]
  | cons x rest ih =>
    cases hx : postBodyCheck x with
    | ok b =>
      cases b with
      | true =>
        have : specBodyNonBlank x = true := (postBodyCheck_ok_true x).mp hx
        simp [jsEvery, hx, this, ih]
      | false =>
        have : ¬ specBodyNonBlank x = true := by
          intro hs
          have := (postBodyCheck_ok_true x).mpr hs
          rw [hx] at this
          cases this
        simp [jsEvery, hx, this]
    | error msg =>
      have : ¬ specBodyNonBlank x = true := by
        intro hs
        have := (postBodyCheck_ok_true x).mpr hs
        rw [hx] at this
        cases this
      simp [jsEvery, hx, this]

/-- C7.  The field-completeness validator: on a sequence payload all of
whose elements are trim-safe (their `body` is absent, falsy or a text
value — other body types are the adapter-level undefined behavior the
spec carves out), it returns, without raising, true exactly when every
element is non-null/non-undefined with a `body` that is non-empty after
trimming; in full generality it returns true exactly when every element
satisfies that condition; the empty sequence yields true; a null or
undefined payload yields false without raising. -/
theorem C7_field_completeness_validator :
    (∀ xs : List JSValue, (∀ e ∈ xs, bodyTrimSafe e = true) →
        postDetailsValidator (.arr xs) = .ok (xs.all specBodyNonBlank))
    ∧ (∀ xs : List JSValue,
        (postDetailsValidator (.arr xs) = .ok true ↔
          xs.all specBodyNonBlank = true))
    ∧ postDetailsValidator .null = .ok false
    ∧ postDetailsValidator .undefined = .ok false
    ∧ postDetailsValidator (.arr []) = .ok true := by
  refine ⟨?_, ?_, rfl, rfl, rfl⟩
  · intro xs h
    have := jsEvery_safe xs h
    simpa [postDetailsValidator, isFalsy] using this
  · intro xs
    have := jsEvery_ok_true xs
    simpa [postDetailsValidator, isFalsy] using this

/-- Witness for C7: the spec's scenario table, each case through the
theorem's trim-safe clause. -/
theorem C7_field_completeness_validator_witness :
    postDetailsValidator
        (.arr [.obj [("body", .str "x")], .obj [("body", .str "y")]]) =
      .ok true ∧
    postDetailsValidator
        (.arr [.obj [("body", .str "x")], .obj [("body", .str "")]]) =
      .ok false ∧
    postDetailsValidator
        (.arr [.obj [("body", .str "x")], .obj [("body", .str "   ")]]) =
      .ok false ∧
    postDetailsValidator (.arr [.obj [("body", .str "x")], .null]) =
      .ok false :=
  ⟨(C7_field_completeness_validator.1 _ (by decide)).trans
      (congrArg Except.ok (by decide)),
   (C7_field_completeness_validator.1 _ (by decide)).trans
      (congrArg Except.ok (by decide)),
   (C7_field_completeness_validator.1 _ (by decide)).trans
      (congrArg Except.ok (by decide)),
   (C7_field_completeness_validator.1 _ (by decide)).trans
      (congrArg Except.ok (by decide))⟩

/-- C10.  Only falsy payloads are guarded to return false; every truthy
non-array payload — in particular a single post object, the shape the
post-details fetch resolves with — makes the validator raise a TypeError
instead of returning. -/
theorem C10_validator_raises_on_non_sequence :
    (∀ v : JSValue, isFalsy v = true → postDetailsValidator v = .ok false)
    ∧ (∀ v : JSValue, isFalsy v = false →
        (∀ xs : List JSValue, v ≠ .arr xs) →
        exceptIsOk (postDetailsValidator v) = false)
    ∧ postDetailsValidator
        (.obj [("userId", .num 1), ("id", .num 1), ("title", .str "t"),
               ("body", .str "content")]) =
      .error "TypeError: data.every is not a function" := by
  refine ⟨?_, ?_, rfl⟩
  · intro v h
    simp [postDetailsValidator, h]
  · intro v hf hne
    cases v with
    | arr xs => exact absurd rfl (hne xs)
    | _ => simp_all [postDetailsValidator, isFalsy, exceptIsOk]

/-- Witness for C10: the single-post-object payload raises, and the
falsy guard at null returns false. -/
theorem C10_validator_raises_witness :
    exceptIsOk (postDetailsValidator
      (.obj [("userId", .num 1), ("id", .num 1), ("title", .str "t"),
             ("body", .str "content")])) = false ∧
    postDetailsValidator .null = .ok false :=
  ⟨C10_validator_raises_on_non_sequence.2.1 _ rfl (fun xs h => by cases h),
   C10_validator_raises_on_non_sequence.1 .null rfl⟩

/-! ### C4: start resets the session -/

/-- C4.  `startPolling` dispatches `START_POLLING`, and the reducer maps
every state — idle, active or terminated — to the full reset with the
active flag set, before any attempt of the new session runs; at the
event level, after a `start` step the configuration's attempt count,
last result and validation status are the initial ones and the session
is active, whatever the prior configuration. -/
theorem C4_start_resets_session :
    (∀ s : PollSession,
      pollingReducer s { type := "START_POLLING" } =
        .ok { isPollingJobActive := true, isPolling := false,
              attemptCount := 0, lastResult := none,
              validationStatus := none })
    ∧ (∀ c : PollConfig,
        (stepStart c).1.state.attemptCount = 0 ∧
        (stepStart c).1.state.lastResult = none ∧
        (stepStart c).1.state.validationStatus = none ∧
        (stepStart c).1.state.isPollingJobActive = true) := by
  constructor
  · intro s
    rfl
  · intro c
    by_cases h : c.state.isPollingJobActive = true <;>
      simp [stepStart, h]

/-! ### C1: cancellation is not inert in the code -/

/-- Counterexample to C1 as stated.  Start a session (attempt 1 is
dispatched, `attemptCount = 0`), call `stop()` while the attempt is in
flight, then let the attempt settle.  With an always-false validator and
`maxAttempts = 3` the stale resolution increments `attemptCount` from 0
to 1, overwrites `lastResult`, and schedules a further attempt's timer;
with an always-true validator it sets `validationStatus` to success.
The session state does not stay as `stop()` left it, because the
`.then` / `.catch` continuations dispatch with no active-session
guard. -/
theorem C1_cancellation_counterexample :
    (stepStop (stepStart initConfig).1).state.attemptCount = 0 ∧
    (stepStop (stepStart initConfig).1).state.lastResult = none ∧
    (stepStop (stepStart initConfig).1).inFlight = 1 ∧
    (stepResolve { maxAttempts := some 3, validator := fun _ => false }
        (stepStop (stepStart initConfig).1) (.res .null)).state.attemptCount
      = 1 ∧
    (stepResolve { maxAttempts := some 3, validator := fun _ => false }
        (stepStop (stepStart initConfig).1) (.res .null)).state.lastResult
      = some (.res .null) ∧
    (stepResolve { maxAttempts := some 3, validator := fun _ => false }
        (stepStop (stepStart initConfig).1) (.res .null)).timer = true ∧
    (stepResolve { maxAttempts := some 3, validator := fun _ => true }
        (stepStop (stepStart initConfig).1) (.res .null)).state.validationStatus
      = some "success" :=
  ⟨rfl, rfl, rfl, rfl, rfl, rfl, rfl⟩

/-- C1 amended.  When the session is inactive, a stale resolution still
runs the un-guarded continuation: it increments `attemptCount`, records
the result in `lastResult`, and may set `validationStatus` or schedule a
retry timer — but the session stays inactive, and the timer's
`performPoll`, when it fires, is stopped by the active-session guard: it
dispatches no further async action and leaves the state unchanged. -/
theorem C1_stale_resolution_inactive (env : PollEnv) (c : PollConfig)
    (r : ResultV) (h : c.state.isPollingJobActive = false) :
    (stepResolve env c r).state.isPollingJobActive = false ∧
    (stepResolve env c r).state.attemptCount = c.state.attemptCount + 1 ∧
    (stepResolve env c r).state.lastResult = some r ∧
    (stepTimer (stepResolve env c r)).2 = false ∧
    (stepTimer (stepResolve env c r)).1.state = (stepResolve env c r).state := by
  have hmain : (stepResolve env c r).state.isPollingJobActive = false ∧
      (stepResolve env c r).state.attemptCount = c.state.attemptCount + 1 ∧
      (stepResolve env c r).state.lastResult = some r := by
    cases r with
    | res p =>
      by_cases hv : env.validator p
      · simp [stepResolve, hv, h]
      · cases hm : env.maxAttempts with
        | none => simp [stepResolve, hv, handleNextPoll, hm, h]
        | some m =>
          by_cases hge : c.state.attemptCount + 1 ≥ m <;>
            simp [stepResolve, hv, handleNextPoll, hm, hge, h]
    | err e =>
      cases hm : env.maxAttempts with
      | none => simp [stepResolve, handleNextPoll, hm, h]
      | some m =>
        by_cases hge : c.state.attemptCount + 1 ≥ m <;>
          simp [stepResolve, handleNextPoll, hm, hge, h]
  refine ⟨hmain.1, hmain.2.1, hmain.2.2, ?_, ?_⟩ <;>
    by_cases ht : (stepResolve env c r).timer <;>
      simp [stepTimer, ht, hmain.1]

/-- Witness for the amended C1: the stale resolution of the
counterexample trace leaves the session inactive and the later timer
fire dispatches nothing. -/
theorem C1_stale_resolution_inactive_witness :
    (stepResolve { maxAttempts := some 3, validator := fun _ => false }
        (stepStop (stepStart initConfig).1)
        (.res .null)).state.isPollingJobActive = false ∧
    (stepTimer (stepResolve
        { maxAttempts := some 3, validator := fun _ => false }
        (stepStop (stepStart initConfig).1) (.res .null))).2 = false :=
  ⟨(C1_stale_resolution_inactive _ _ _ rfl).1,
   (C1_stale_resolution_inactive _ _ _ rfl).2.2.2.1⟩

/-! ### C3: validator success has priority and ends the session -/

/-- C3.  On an active session, a resolved attempt whose payload the
validator accepts terminates with `validationStatus = success`,
`isPollingJobActive = false`, no timer scheduled, and the attempt
counted — with no condition on `attemptCount` against `maxAttempts`,
because the validator is checked before the budget check, so this holds
in particular on the attempt on which the count reaches the budget.
Moreover a whole session whose first outcome is accepted ends after
exactly one dispatch with `attemptCount = 1`. -/
theorem C3_success_priority (env : PollEnv) (c : PollConfig) (p : JSValue)
    (os : List ResultV) (hactive : c.state.isPollingJobActive = true)
    (hv : env.validator p = true) :
    ((stepResolve env c (.res p)).state.validationStatus = some "success" ∧
     (stepResolve env c (.res p)).state.isPollingJobActive = false ∧
     (stepResolve env c (.res p)).state.isPolling = false ∧
     (stepResolve env c (.res p)).state.attemptCount
        = c.state.attemptCount + 1 ∧
     (stepResolve env c (.res p)).state.lastResult = some (.res p) ∧
     (stepResolve env c (.res p)).timer = false) ∧
    ((runSession env (.res p :: os)).2 = 1 ∧
     (runSession env (.res p :: os)).1.state.validationStatus
        = some "success" ∧
     (runSession env (.res p :: os)).1.state.attemptCount = 1 ∧
     (runSession env (.res p :: os)).1.state.isPollingJobActive = false ∧
     (runSession env (.res p :: os)).1.timer = false) := by
  constructor
  · simp [stepResolve, hv, hactive]
  · simp [runSession, runResolves, stepStart, initConfig, initialState,
      stepResolve, hv]

/-- Witness for C3 at the exhaustion boundary: `maxAttempts = 1` and a
validator accepting the first payload — success still wins on the
attempt that reaches the budget. -/
theorem C3_success_priority_witness :
    ((stepResolve { maxAttempts := some 1, validator := fun _ => true }
        (stepStart initConfig).1
        (.res .null)).state.validationStatus = some "success" ∧
     (stepResolve { maxAttempts := some 1, validator := fun _ => true }
        (stepStart initConfig).1 (.res .null)).timer = false) ∧
    ((runSession { maxAttempts := some 1, validator := fun _ => true }
        [.res .null]).2 = 1 ∧
     (runSession { maxAttempts := some 1, validator := fun _ => true }
        [.res .null]).1.state.attemptCount = 1) :=
  ⟨⟨(C3_success_priority _ _ .null [] rfl rfl).1.1,
    (C3_success_priority _ _ .null [] rfl rfl).1.2.2.2.2.2⟩,
   ⟨(C3_success_priority _ (stepStart initConfig).1 .null [] rfl rfl).2.1,
    (C3_success_priority _ (stepStart initConfig).1 .null [] rfl rfl).2.2.2.1⟩⟩

/-! ### C5: a rejection is budgeted like a validation failure -/

/-- C5.  On an active session with budget `m`, a rejected attempt is
recorded as `lastResult` = the error wrapper, counts one attempt, clears
`isPolling`, and then follows the budget rule: when the incremented
count reaches `m` the session terminates with `max_attempts_reached`,
otherwise a retry timer is scheduled, the session stays active, and the
validation status is untouched — and the resulting activity flag,
status, count and timer are identical to those after a resolved attempt
that fails validation, so a rejection never by itself terminates the
session while budget remains. -/
theorem C5_rejection_handling (env : PollEnv) (m : Nat) (c : PollConfig)
    (e : JSValue) (hm : env.maxAttempts = some m)
    (hactive : c.state.isPollingJobActive = true) :
    (stepResolve env c (.err e)).state.lastResult = some (.err e) ∧
    (stepResolve env c (.err e)).state.attemptCount
      = c.state.attemptCount + 1 ∧
    (stepResolve env c (.err e)).state.isPolling = false ∧
    (if c.state.attemptCount + 1 ≥ m then
      (stepResolve env c (.err e)).state.validationStatus
          = some "max_attempts_reached" ∧
      (stepResolve env c (.err e)).state.isPollingJobActive = false ∧
      (stepResolve env c (.err e)).timer = false
     else
      (stepResolve env c (.err e)).state.validationStatus
          = c.state.validationStatus ∧
      (stepResolve env c (.err e)).state.isPollingJobActive = true ∧
      (stepResolve env c (.err e)).timer = true) ∧
    (∀ p : JSValue, env.validator p = false →
      (stepResolve env c (.res p)).state.isPollingJobActive
          = (stepResolve env c (.err e)).state.isPollingJobActive ∧
      (stepResolve env c (.res p)).state.validationStatus
          = (stepResolve env c (.err e)).state.validationStatus ∧
      (stepResolve env c (.res p)).state.attemptCount
          = (stepResolve env c (.err e)).state.attemptCount ∧
      (stepResolve env c (.res p)).state.isPolling
          = (stepResolve env c (.err e)).state.isPolling ∧
      (stepResolve env c (.res p)).timer = (stepResolve env c (.err e)).timer ∧
      (stepResolve env c (.res p)).inFlight
          = (stepResolve env c (.err e)).inFlight) := by
  by_cases hge : c.state.attemptCount + 1 ≥ m
  · refine ⟨?_, ?_, ?_, ?_, ?_⟩ <;>
      simp [stepResolve, handleNextPoll, hm, hge, hactive]
    intro p hv
    simp [stepResolve, handleNextPoll, hm, hge, hactive, hv]
  · refine ⟨?_, ?_, ?_, ?_, ?_⟩ <;>
      simp [stepResolve, handleNextPoll, hm, hge, hactive]
    intro p hv
    simp [stepResolve, handleNextPoll, hm, hge, hactive, hv]

/-- Witness for C5: a rejection with one attempt of budget left is
recorded and retried (attempt counted, session still active, timer
scheduled, status untouched). -/
theorem C5_rejection_handling_witness :
    (stepResolve { maxAttempts := some 2, validator := fun _ => false }
        (stepStart initConfig).1
        (.err (.str "boom"))).state.lastResult = some (.err (.str "boom")) ∧
    (stepResolve { maxAttempts := some 2, validator := fun _ => false }
        (stepStart initConfig).1
        (.err (.str "boom"))).state.attemptCount = 1 :=
  ⟨(C5_rejection_handling _ 2 _ (.str "boom") rfl rfl).1,
   (C5_rejection_handling _ 2 _ (.str "boom") rfl rfl).2.1⟩

/-! ### C2: exhaustion boundary -/

/-- Mid-session configuration: the session is active, attempt `k + 1` is
in flight (dispatched, not settled), `k` attempts have settled and no
timer is pending. -/
def midConfig (k : Nat) (lr : Option ResultV) : PollConfig :=
  { state := { isPollingJobActive := true, isPolling := true,
               attemptCount := k, lastResult := lr,
               validationStatus := none }
    timer := false
    inFlight := 1 }

/-- Unfolding of the session driver on a non-empty outcome script when
an attempt is in flight. -/
lemma runResolves_cons (env : PollEnv) (c : PollConfig) (r : ResultV)
    (rs : List ResultV) (h : ¬ c.inFlight = 0) :
    runResolves env c (r :: rs) =
      if (stepResolve env c r).timer then
        ((runResolves env (stepTimer (stepResolve env c r)).1 rs).1,
         (if (stepTimer (stepResolve env c r)).2 then 1 else 0) +
           (runResolves env (stepTimer (stepResolve env c r)).1 rs).2)
      else (stepResolve env c r, 0) := by
  simp [runResolves, h]

/-- With an always-false validator and budget `m`, running from a
mid-session configuration with `k` settled attempts terminates, after
exactly `m - k - 1` further dispatches, in the exhausted terminal
configuration with `attemptCount = m`. -/
lemma runResolves_exhausts (m : Nat) (v : JSValue → Bool)
    (hv : ∀ p, v p = false) :
    ∀ (os : List ResultV) (k : Nat) (lr : Option ResultV),
      k < m → m ≤ k + os.length →
      ((runResolves { maxAttempts := some m, validator := v }
          (midConfig k lr) os).1.state.validationStatus
            = some "max_attempts_reached" ∧
       (runResolves { maxAttempts := some m, validator := v }
          (midConfig k lr) os).1.state.isPollingJobActive = false ∧
       (runResolves { maxAttempts := some m, validator := v }
          (midConfig k lr) os).1.state.isPolling = false ∧
       (runResolves { maxAttempts := some m, validator := v }
          (midConfig k lr) os).1.state.attemptCount = m ∧
       (runResolves { maxAttempts := some m, validator := v }
          (midConfig k lr) os).1.timer = false ∧
       (runResolves { maxAttempts := some m, validator := v }
          (midConfig k lr) os).1.inFlight = 0 ∧
       (runResolves { maxAttempts := some m, validator := v }
          (midConfig k lr) os).2 = m - k - 1) := by
  intro os
  induction os with
  | nil =>
    intro k lr hk hle
    simp at hle
    omega
  | cons r rs ih =>
    intro k lr hk hle
    have hstep : stepResolve { maxAttempts := some m, validator := v }
        (midConfig k lr) r =
        handleNextPoll { maxAttempts := some m, validator := v }
          (midConfig k lr)
          { isPollingJobActive := true, isPolling := false,
            attemptCount := k + 1, lastResult := some r,
            validationStatus := none } := by
      cases r with
      | res p => simp [stepResolve, hv p, midConfig]
      | err e => simp [stepResolve, midConfig]
    rw [runResolves_cons _ _ _ _ (by simp [midConfig])]
    by_cases hge : k + 1 ≥ m
    · have hkm : k + 1 = m := by omega
      have hc1 : stepResolve { maxAttempts := some m, validator := v }
          (midConfig k lr) r =
          { state := { isPollingJobActive := false, isPolling := false,
                       attemptCount := k + 1, lastResult := some r,
                       validationStatus := some "max_attempts_reached" }
            timer := false
            inFlight := 0 } := by
        rw [hstep]
        simp [handleNextPoll, midConfig, hge]
      rw [hc1]
      exact ⟨rfl, rfl, rfl, show k + 1 = m from hkm, rfl, rfl,
        show (0 : Nat) = m - k - 1 by omega⟩
    · have hc1 : stepResolve { maxAttempts := some m, validator := v }
          (midConfig k lr) r =
          { state := { isPollingJobActive := true, isPolling := false,
                       attemptCount := k + 1, lastResult := some r,
                       validationStatus := none }
            timer := true
            inFlight := 0 } := by
        rw [hstep]
        simp [handleNextPoll, midConfig, hge]
      have htimer : stepTimer
          { state := { isPollingJobActive := true, isPolling := false,
                       attemptCount := k + 1, lastResult := some r,
                       validationStatus := none }
            timer := true
            inFlight := 0 } = (midConfig (k + 1) (some r), true) := rfl
      rw [hc1]
      simp only [htimer]
      have hrec := ih (k + 1) (some r) (by omega) (by
        simp at hle
        omega)
      rw [if_pos trivial]
      refine ⟨hrec.1, hrec.2.1, hrec.2.2.1, hrec.2.2.2.1, hrec.2.2.2.2.1,
        hrec.2.2.2.2.2.1, ?_⟩
      show 1 + (runResolves { maxAttempts := some m, validator := v }
        (midConfig (k + 1) (some r)) rs).2 = m - k - 1
      rw [hrec.2.2.2.2.2.2]
      omega

/-- C2.  With budget `m ≥ 1` and a validator that always returns false,
a session whose attempts keep settling (at least `m` outcomes scripted,
arbitrarily many allowed) dispatches the async action exactly `m`
times; after the `m`-th outcome is processed the session is terminal:
`validationStatus = max_attempts_reached`, `isPollingJobActive = false`,
`attemptCount = m`, no timer pending and no attempt in flight — so no
`(m+1)`-th dispatch ever occurs. -/
theorem C2_exhaustion_boundary (m : Nat) (v : JSValue → Bool)
    (os : List ResultV) (hm : 1 ≤ m) (hv : ∀ p, v p = false)
    (hos : m ≤ os.length) :
    (runSession { maxAttempts := some m, validator := v } os).2 = m ∧
    (runSession { maxAttempts := some m, validator := v }
        os).1.state.validationStatus = some "max_attempts_reached" ∧
    (runSession { maxAttempts := some m, validator := v }
        os).1.state.isPollingJobActive = false ∧
    (runSession { maxAttempts := some m, validator := v }
        os).1.state.attemptCount = m ∧
    (runSession { maxAttempts := some m, validator := v }
        os).1.timer = false ∧
    (runSession { maxAttempts := some m, validator := v }
        os).1.inFlight = 0 := by
  have hrun := runResolves_exhausts m v hv os 0 none (by omega)
    (by omega)
  have hfst : (runSession { maxAttempts := some m, validator := v }
      os).1 = (runResolves { maxAttempts := some m, validator := v }
      (midConfig 0 none) os).1 := rfl
  have hsnd : (runSession { maxAttempts := some m, validator := v }
      os).2 = 1 + (runResolves { maxAttempts := some m, validator := v }
      (midConfig 0 none) os).2 := rfl
  refine ⟨?_, ?_, ?_, ?_, ?_, ?_⟩
  · rw [hsnd, hrun.2.2.2.2.2.2]
    omega
  · rw [hfst]
    exact hrun.1
  · rw [hfst]
    exact hrun.2.1
  · rw [hfst]
    exact hrun.2.2.2.1
  · rw [hfst]
    exact hrun.2.2.2.2.1
  · rw [hfst]
    exact hrun.2.2.2.2.2.1

/-- Witness for C2: budget 2, three outcomes scripted — exactly two
dispatches, terminal exhausted state. -/
theorem C2_exhaustion_boundary_witness :
    (runSession { maxAttempts := some 2, validator := fun _ => false }
        [.res .null, .res .null, .res .null]).2 = 2 ∧
    (runSession { maxAttempts := some 2, validator := fun _ => false }
        [.res .null, .res .null, .res .null]).1.state.validationStatus
      = some "max_attempts_reached" :=
  ⟨(C2_exhaustion_boundary 2 _ _ (by omega) (fun p => rfl) (by simp)).1,
   (C2_exhaustion_boundary 2 _ _ (by omega) (fun p => rfl) (by simp)).2.1⟩

/-! ### C9: terminal-state invariant -/

/-- Configurations reachable from the idle hook through the engine's
event flow: a start, a stop, a timer firing, or an in-flight attempt
settling (under whatever parameters the refs hold at that moment). -/
inductive ReachableConfig : PollConfig → Prop where
  | init : ReachableConfig initConfig
  | start : ∀ c, ReachableConfig c → ReachableConfig (stepStart c).1
  | stop : ∀ c, ReachableConfig c → ReachableConfig (stepStop c)
  | timer : ∀ c, ReachableConfig c → ReachableConfig (stepTimer c).1
  | resolve : ∀ (env : PollEnv) (c : PollConfig) (r : ResultV),
      ReachableConfig c → ReachableConfig (stepResolve env c r)

/-- Invariant: in every reachable configuration the validation status is
unset, or the session is inactive and not polling. -/
lemma reachable_status_inactive (c : PollConfig)
    (hc : ReachableConfig c) :
    c.state.validationStatus = none ∨
      (c.state.isPollingJobActive = false ∧ c.state.isPolling = false) := by
  induction hc with
  | init => exact .inl rfl
  | start c hc ih =>
    by_cases h : c.state.isPollingJobActive = true <;>
      simp [stepStart, h]
  | stop c hc ih =>
    exact .inr ⟨rfl, rfl⟩
  | timer c hc ih =>
    by_cases ht : c.timer = true
    · by_cases ha : c.state.isPollingJobActive = true
      · rcases ih with hst | ⟨hia, _⟩
        · exact .inl (by simp [stepTimer, ht, ha, hst])
        · rw [ha] at hia
          cases hia
      · simpa [stepTimer, ht, ha] using ih
    · simpa [stepTimer, ht] using ih
  | resolve env c r hc ih =>
    cases r with
    | res p =>
      by_cases hv : env.validator p = true
      · exact .inr (by simp [stepResolve, hv])
      · cases hm : env.maxAttempts with
        | none =>
          rcases ih with hst | ⟨hia, _⟩
          · exact .inl (by simp [stepResolve, hv, handleNextPoll, hm, hst])
          · exact .inr
              (by simp [stepResolve, hv, handleNextPoll, hm, hia])
        | some m =>
          by_cases hge : c.state.attemptCount + 1 ≥ m
          · exact .inr
              (by simp [stepResolve, hv, handleNextPoll, hm, hge])
          · rcases ih with hst | ⟨hia, _⟩
            · exact .inl
                (by simp [stepResolve, hv, handleNextPoll, hm, hge, hst])
            · exact .inr
                (by simp [stepResolve, hv, handleNextPoll, hm, hge, hia])
    | err e =>
      cases hm : env.maxAttempts with
      | none =>
        rcases ih with hst | ⟨hia, _⟩
        · exact .inl (by simp [stepResolve, handleNextPoll, hm, hst])
        · exact .inr (by simp [stepResolve, handleNextPoll, hm, hia])
      | some m =>
        by_cases hge : c.state.attemptCount + 1 ≥ m
        · exact .inr (by simp [stepResolve, handleNextPoll, hm, hge])
        · rcases ih with hst | ⟨hia, _⟩
          · exact .inl
              (by simp [stepResolve, handleNextPoll, hm, hge, hst])
          · exact .inr
              (by simp [stepResolve, handleNextPoll, hm, hge, hia])

/-- C9.  In every configuration reachable through the engine's event
flow, a non-null `validationStatus` (success or max_attempts_reached)
comes with `isPollingJobActive = false` and `isPolling = false`; and the
next start step resets `validationStatus` to null. -/
theorem C9_terminal_state_invariant :
    (∀ c : PollConfig, ReachableConfig c →
      c.state.validationStatus ≠ none →
      c.state.isPollingJobActive = false ∧ c.state.isPolling = false)
    ∧ (∀ c : PollConfig, (stepStart c).1.state.validationStatus = none) := by
  constructor
  · intro c hc hst
    rcases reachable_status_inactive c hc with h | h
    · exact absurd h hst
    · exact h
  · intro c
    by_cases h : c.state.isPollingJobActive = true <;> simp [stepStart, h]

/-- Witness for C9: a concrete reachable terminal configuration (start,
then a resolution the validator accepts) is inactive and not polling. -/
theorem C9_terminal_state_invariant_witness :
    (stepResolve { maxAttempts := some 1, validator := fun _ => true }
        (stepStart initConfig).1
        (.res .null)).state.isPollingJobActive = false ∧
    (stepResolve { maxAttempts := some 1, validator := fun _ => true }
        (stepStart initConfig).1 (.res .null)).state.isPolling = false :=
  C9_terminal_state_invariant.1 _
    (ReachableConfig.resolve _ _ _
      (ReachableConfig.start _ ReachableConfig.init))
    (fun h => by simp [stepResolve, stepStart, initConfig] at h)
